import Mathlib

/-
Verification of the tbd content-addressable store and hash-chained log.

Shallow embedding of the Rust sources:
  src/log.rs    - Hash, Hashable, DefaultLog, push, iterators
  src/hashio.rs - HashIOError, path derivation, put (atomic write, child
                  recursion), the tbd_model decode pipeline and the
                  migration fallback chain (tbd_convert_chain)

The repository modules hash.rs and io.rs (byte readers and writers) are not
present under src/; the few primitives taken from them are modelled from the
spec and marked as such.  Machine integers are Nat with explicit masking.
The SHA3-256 permutation is implemented concretely; it is validated below
against the known answer for the empty string and against the three hash
literals asserted by the doc test of log.rs.
-/

set_option maxRecDepth 100000

namespace Tbd

-- ==========================================================================
-- SHA3-256 (the crypto crate primitive used by Hash::hash_bytes)
-- ==========================================================================

def U64 : Nat := 18446744073709551615

def rotl (x n : Nat) : Nat :=
  ((x <<< n) ||| (x >>> (64 - n))) &&& U64

/-- The 25 64-bit lanes of the Keccak state; lane (x, y) is field a(x+5y). -/
structure KSt where
  a00 : Nat
  a01 : Nat
  a02 : Nat
  a03 : Nat
  a04 : Nat
  a05 : Nat
  a06 : Nat
  a07 : Nat
  a08 : Nat
  a09 : Nat
  a10 : Nat
  a11 : Nat
  a12 : Nat
  a13 : Nat
  a14 : Nat
  a15 : Nat
  a16 : Nat
  a17 : Nat
  a18 : Nat
  a19 : Nat
  a20 : Nat
  a21 : Nat
  a22 : Nat
  a23 : Nat
  a24 : Nat

def keccakRound (rc : Nat) (s : KSt) : KSt :=
  -- theta
  let c0 := s.a00 ^^^ s.a05 ^^^ s.a10 ^^^ s.a15 ^^^ s.a20
  let c1 := s.a01 ^^^ s.a06 ^^^ s.a11 ^^^ s.a16 ^^^ s.a21
  let c2 := s.a02 ^^^ s.a07 ^^^ s.a12 ^^^ s.a17 ^^^ s.a22
  let c3 := s.a03 ^^^ s.a08 ^^^ s.a13 ^^^ s.a18 ^^^ s.a23
  let c4 := s.a04 ^^^ s.a09 ^^^ s.a14 ^^^ s.a19 ^^^ s.a24
  let d0 := c4 ^^^ rotl c1 1
  let d1 := c0 ^^^ rotl c2 1
  let d2 := c1 ^^^ rotl c3 1
  let d3 := c2 ^^^ rotl c4 1
  let d4 := c3 ^^^ rotl c0 1
  let t00 := s.a00 ^^^ d0
  let t01 := s.a01 ^^^ d1
  let t02 := s.a02 ^^^ d2
  let t03 := s.a03 ^^^ d3
  let t04 := s.a04 ^^^ d4
  let t05 := s.a05 ^^^ d0
  let t06 := s.a06 ^^^ d1
  let t07 := s.a07 ^^^ d2
  let t08 := s.a08 ^^^ d3
  let t09 := s.a09 ^^^ d4
  let t10 := s.a10 ^^^ d0
  let t11 := s.a11 ^^^ d1
  let t12 := s.a12 ^^^ d2
  let t13 := s.a13 ^^^ d3
  let t14 := s.a14 ^^^ d4
  let t15 := s.a15 ^^^ d0
  let t16 := s.a16 ^^^ d1
  let t17 := s.a17 ^^^ d2
  let t18 := s.a18 ^^^ d3
  let t19 := s.a19 ^^^ d4
  let t20 := s.a20 ^^^ d0
  let t21 := s.a21 ^^^ d1
  let t22 := s.a22 ^^^ d2
  let t23 := s.a23 ^^^ d3
  let t24 := s.a24 ^^^ d4
  -- rho and pi: b(y, 2x+3y) = rotl t(x, y) by the rotation offset of (x, y)
  let b00 := rotl t00 0
  let b10 := rotl t01 1
  let b20 := rotl t02 62
  let b05 := rotl t03 28
  let b15 := rotl t04 27
  let b16 := rotl t05 36
  let b01 := rotl t06 44
  let b11 := rotl t07 6
  let b21 := rotl t08 55
  let b06 := rotl t09 20
  let b07 := rotl t10 3
  let b17 := rotl t11 10
  let b02 := rotl t12 43
  let b12 := rotl t13 25
  let b22 := rotl t14 39
  let b23 := rotl t15 41
  let b08 := rotl t16 45
  let b18 := rotl t17 15
  let b03 := rotl t18 21
  let b13 := rotl t19 8
  let b14 := rotl t20 18
  let b24 := rotl t21 2
  let b09 := rotl t22 61
  let b19 := rotl t23 56
  let b04 := rotl t24 14
  -- chi
  let n00 := b00 ^^^ ((b01 ^^^ U64) &&& b02)
  let n01 := b01 ^^^ ((b02 ^^^ U64) &&& b03)
  let n02 := b02 ^^^ ((b03 ^^^ U64) &&& b04)
  let n03 := b03 ^^^ ((b04 ^^^ U64) &&& b00)
  let n04 := b04 ^^^ ((b00 ^^^ U64) &&& b01)
  let n05 := b05 ^^^ ((b06 ^^^ U64) &&& b07)
  let n06 := b06 ^^^ ((b07 ^^^ U64) &&& b08)
  let n07 := b07 ^^^ ((b08 ^^^ U64) &&& b09)
  let n08 := b08 ^^^ ((b09 ^^^ U64) &&& b05)
  let n09 := b09 ^^^ ((b05 ^^^ U64) &&& b06)
  let n10 := b10 ^^^ ((b11 ^^^ U64) &&& b12)
  let n11 := b11 ^^^ ((b12 ^^^ U64) &&& b13)
  let n12 := b12 ^^^ ((b13 ^^^ U64) &&& b14)
  let n13 := b13 ^^^ ((b14 ^^^ U64) &&& b10)
  let n14 := b14 ^^^ ((b10 ^^^ U64) &&& b11)
  let n15 := b15 ^^^ ((b16 ^^^ U64) &&& b17)
  let n16 := b16 ^^^ ((b17 ^^^ U64) &&& b18)
  let n17 := b17 ^^^ ((b18 ^^^ U64) &&& b19)
  let n18 := b18 ^^^ ((b19 ^^^ U64) &&& b15)
  let n19 := b19 ^^^ ((b15 ^^^ U64) &&& b16)
  let n20 := b20 ^^^ ((b21 ^^^ U64) &&& b22)
  let n21 := b21 ^^^ ((b22 ^^^ U64) &&& b23)
  let n22 := b22 ^^^ ((b23 ^^^ U64) &&& b24)
  let n23 := b23 ^^^ ((b24 ^^^ U64) &&& b20)
  let n24 := b24 ^^^ ((b20 ^^^ U64) &&& b21)
  -- iota
  ⟨n00 ^^^ rc, n01, n02, n03, n04, n05, n06, n07, n08, n09,
   n10, n11, n12, n13, n14, n15, n16, n17, n18, n19,
   n20, n21, n22, n23, n24⟩

def roundConstants : List Nat :=
  [0x0000000000000001, 0x0000000000008082, 0x800000000000808a, 0x8000000080008000,
   0x000000000000808b, 0x0000000080000001, 0x8000000080008081, 0x8000000000008009,
   0x000000000000008a, 0x0000000000000088, 0x0000000080008009, 0x000000008000000a,
   0x000000008000808b, 0x800000000000008b, 0x8000000000008089, 0x8000000000008003,
   0x8000000000008002, 0x8000000000000080, 0x000000000000800a, 0x800000008000000a,
   0x8000000080008081, 0x8000000000008080, 0x0000000080000001, 0x8000000080008008]

def keccakF (s : KSt) : KSt :=
  roundConstants.foldl (fun st rc => keccakRound rc st) s

def emptySt : KSt := ⟨0,0,0,0,0,0,0,0,0,0,0,0,0,0,0,0,0,0,0,0,0,0,0,0,0⟩

/-- Interpret up to 8 bytes (little endian) as a 64-bit lane. -/
def laneOfBytes (l : List Nat) : Nat :=
  match l with
  | [] => 0
  | b :: rest => b + 256 * laneOfBytes rest

def lane (block : List Nat) (j : Nat) : Nat :=
  laneOfBytes ((block.drop (8 * j)).take 8)

/-- Absorb one 136-byte block (17 lanes, rate of SHA3-256) and permute. -/
def absorbBlock (s : KSt) (block : List Nat) : KSt :=
  keccakF
  { s with
    a00 := s.a00 ^^^ lane block 0
    a01 := s.a01 ^^^ lane block 1
    a02 := s.a02 ^^^ lane block 2
    a03 := s.a03 ^^^ lane block 3
    a04 := s.a04 ^^^ lane block 4
    a05 := s.a05 ^^^ lane block 5
    a06 := s.a06 ^^^ lane block 6
    a07 := s.a07 ^^^ lane block 7
    a08 := s.a08 ^^^ lane block 8
    a09 := s.a09 ^^^ lane block 9
    a10 := s.a10 ^^^ lane block 10
    a11 := s.a11 ^^^ lane block 11
    a12 := s.a12 ^^^ lane block 12
    a13 := s.a13 ^^^ lane block 13
    a14 := s.a14 ^^^ lane block 14
    a15 := s.a15 ^^^ lane block 15
    a16 := s.a16 ^^^ lane block 16 }

/-- SHA3 multi-rate padding for rate 136: append 0x06, zero-fill, final 0x80. -/
def sha3Pad (msg : List Nat) : List Nat :=
  let rem := msg.length % 136
  if rem = 135 then msg ++ [0x86]
  else msg ++ [0x06] ++ List.replicate (136 - rem - 2) 0 ++ [0x80]

/-- Absorb n consecutive 136-byte blocks of a padded message. -/
def absorbBlocks (s : KSt) (padded : List Nat) : Nat → KSt
  | 0 => s
  | n + 1 => absorbBlocks (absorbBlock s (padded.take 136)) (padded.drop 136) n

def absorbAll (s : KSt) (padded : List Nat) : KSt :=
  absorbBlocks s padded (padded.length / 136)

/-- Split a 64-bit lane into 8 little-endian bytes. -/
def laneBytes (x : Nat) : List Nat :=
  [x % 256, x / 256 % 256, x / 256^2 % 256, x / 256^3 % 256,
   x / 256^4 % 256, x / 256^5 % 256, x / 256^6 % 256, x / 256^7 % 256]

/-- SHA3-256 digest (32 bytes) of a byte sequence. -/
def sha3_256 (msg : List Nat) : List Nat :=
  let s := absorbAll emptySt (sha3Pad msg)
  laneBytes s.a00 ++ laneBytes s.a01 ++ laneBytes s.a02 ++ laneBytes s.a03

theorem sha3_256_length (msg : List Nat) : (sha3_256 msg).length = 32 := by
  simp [sha3_256, laneBytes]

-- ==========================================================================
-- Hash (src/log.rs, "Defining HashLog types")
-- ==========================================================================

/-- Byte sequences (u8 values as Nat). -/
abbrev Bytes := List Nat

/-- A 32-byte digest, the payload of the Sha3 variant of Hash. -/
abbrev Bytes32 := { l : Bytes // l.length = 32 }

/-- Stores one of the supported hash values (enum Hash in log.rs). -/
inductive Hash where
  | none : Hash
  | sha3 : Bytes32 → Hash
deriving DecidableEq

/-- half_byte_to_string from log.rs (one hex character). -/
def half_byte_to_string (byte : Nat) : Char :=
  match byte with
  | 0 => '0'
  | 1 => '1'
  | 2 => '2'
  | 3 => '3'
  | 4 => '4'
  | 5 => '5'
  | 6 => '6'
  | 7 => '7'
  | 8 => '8'
  | 9 => '9'
  | 10 => 'a'
  | 11 => 'b'
  | 12 => 'c'
  | 13 => 'd'
  | 14 => 'e'
  | 15 => 'f'
  | _ => '?'

/-- byte_to_string from log.rs (two hex characters). -/
def byte_to_string (byte : Nat) : List Char :=
  [half_byte_to_string (byte / 16), half_byte_to_string (byte % 16)]

/-- bytes_to_string from log.rs. -/
def bytes_to_string : Bytes → List Char
  | [] => []
  | byte :: rest => byte_to_string byte ++ bytes_to_string rest

namespace Hash

/-- Hash::get_bytes. -/
def get_bytes : Hash → Bytes
  | Hash.none => []
  | Hash.sha3 x => x.val

/-- Hash::as_string (a string modelled as its character list). -/
def as_string (h : Hash) : List Char :=
  bytes_to_string (get_bytes h)

/-- Hash::hash_bytes: SHA3-256 of the input bytes. -/
def hash_bytes (bytes : Bytes) : Hash :=
  Hash.sha3 ⟨sha3_256 bytes, sha3_256_length bytes⟩

/-- Hash::hash_with: SHA3-256 of the two concatenated byte sequences. -/
def hash_with (self o : Hash) : Hash :=
  hash_bytes (get_bytes self ++ get_bytes o)

end Hash

/-- impl Hashable for Hash: re-hash the underlying bytes. -/
def hash_as_hash (h : Hash) : Hash :=
  Hash.hash_bytes (Hash.get_bytes h)

-- ==========================================================================
-- DefaultLog (src/log.rs)
-- ==========================================================================

/-- A payload item together with the optional parent hash. -/
structure DefaultLogEntry (T : Type) where
  entry : T
  parent_hash : Option Hash

/-- Association list lookup, modelling BTreeMap::get. -/
def assocGet {κ β : Type} [DecidableEq κ] : List (κ × β) → κ → Option β
  | [], _ => Option.none
  | (k1, v1) :: rest, k => if k1 = k then Option.some v1 else assocGet rest k

/-- Association list insert with overwrite, modelling BTreeMap::insert. -/
def assocPut {κ β : Type} [DecidableEq κ] : List (κ × β) → κ → β → List (κ × β)
  | [], k, v => [(k, v)]
  | (k1, v1) :: rest, k, v =>
      if k1 = k then (k, v) :: rest else (k1, v1) :: assocPut rest k v

/-- Association list removal. -/
def assocRemove {κ β : Type} [DecidableEq κ] : List (κ × β) → κ → List (κ × β)
  | [], _ => []
  | (k1, v1) :: rest, k =>
      if k1 = k then assocRemove rest k else (k1, v1) :: assocRemove rest k

/-- DefaultLog: entry map, head pointer and the pluggable load/save hooks. -/
structure DefaultLog (T : Type) where
  entries : List (Hash × DefaultLogEntry T)
  head : Option Hash
  load : Hash → Option (DefaultLogEntry T)
  save : DefaultLogEntry T → Unit

/-- DefaultLog::new (Log::new): empty map, no head, no-op hooks. -/
def DefaultLog.new (T : Type) : DefaultLog T :=
  ⟨[], Option.none, fun _ => Option.none, fun _ => ()⟩

/--
DefaultLog::push.  The Hashable impl of the item type is passed explicitly
as itemHash.  Returns the mutated log together with the returned hash.
-/
def push {T : Type} (itemHash : T → Hash) (log : DefaultLog T) (t : T) :
    DefaultLog T × Hash :=
  let entry_hash := itemHash t
  let hash :=
    match log.head with
    | Option.none => hash_as_hash entry_hash
    | Option.some head_hash => Hash.hash_with entry_hash head_hash
  let log_entry : DefaultLogEntry T := ⟨t, log.head⟩
  (⟨assocPut log.entries hash log_entry, Option.some hash, log.load, log.save⟩, hash)

/-- DefaultLog::head_hash. -/
def head_hash {T : Type} (log : DefaultLog T) : Option Hash :=
  log.head

/-- DefaultLog::parent_hash. -/
def parent_hash {T : Type} (log : DefaultLog T) (hash : Hash) : Option Hash :=
  match assocGet log.entries hash with
  | Option.none => Option.none
  | Option.some entry => entry.parent_hash

/-- DefaultLog::get. -/
def log_get {T : Type} (log : DefaultLog T) (hash : Hash) : Option T :=
  match assocGet log.entries hash with
  | Option.none => Option.none
  | Option.some entry => Option.some entry.entry

-- ==========================================================================
-- Iterators (src/log.rs).  Iterator state is the Option Hash cursor; next
-- returns the yielded item and the new cursor.
-- ==========================================================================

/-- LogIteratorRef::next. -/
def iter_ref_next {T : Type} (log : DefaultLog T) (st : Option Hash) :
    Option T × Option Hash :=
  match st with
  | Option.none => (Option.none, Option.none)
  | Option.some hash => (log_get log hash, parent_hash log hash)

/--
LogIteratorHash::next, translated exactly: it fetches the entry into an
unused binding, overwrites the cursor with the parent hash and then returns
the already overwritten cursor.
-/
def iter_hash_next {T : Type} (log : DefaultLog T) (st : Option Hash) :
    Option Hash × Option Hash :=
  match st with
  | Option.none => (Option.none, Option.none)
  | Option.some hash =>
      let _value := log_get log hash
      let st2 := parent_hash log hash
      (st2, st2)

/-- Items produced by driving LogIteratorRef until it yields None (fuel-bounded). -/
def iter_ref_items {T : Type} (log : DefaultLog T) : Option Hash → Nat → List T
  | _, 0 => []
  | st, n + 1 =>
      match iter_ref_next log st with
      | (Option.none, _) => []
      | (Option.some v, st2) => v :: iter_ref_items log st2 n

/-- Items produced by driving LogIteratorHash until it yields None (fuel-bounded). -/
def iter_hash_items {T : Type} (log : DefaultLog T) : Option Hash → Nat → List Hash
  | _, 0 => []
  | st, n + 1 =>
      match iter_hash_next log st with
      | (Option.none, _) => []
      | (Option.some v, st2) => v :: iter_hash_items log st2 n

/-- LogIteratorRef::from_log / LogIteratorHash::from_log start at head_hash. -/
def iter_start {T : Type} (log : DefaultLog T) : Option Hash :=
  head_hash log

-- ==========================================================================
-- HashIOError (src/hashio.rs)
-- ==========================================================================

/-- Default error type for HashIO (io::Error and Box of error modelled as text). -/
inductive HashIOError where
  | Undefined : List Char → HashIOError
  | VersionError : Nat → HashIOError
  | TypeError : Hash → HashIOError
  | IOError : List Char → HashIOError
  | ParseError : List Char → HashIOError
deriving DecidableEq

/--
Result of running a store operation: ok, an early return with a HashIOError,
or a Rust panic (out-of-bounds string slice).
-/
inductive PRes (α : Type) where
  | panic : PRes α
  | err : HashIOError → PRes α
  | ok : α → PRes α
deriving DecidableEq

/-- try! propagation for PRes. -/
def pbind {α β : Type} : PRes α → (α → PRes β) → PRes β
  | PRes.panic, _ => PRes.panic
  | PRes.err e, _ => PRes.err e
  | PRes.ok a, f => f a

-- ==========================================================================
-- File system model.  Paths are character lists (Rust String paths); the
-- state is a map from path to file content plus the set of directories.
-- ==========================================================================

abbrev FPath := List Char

structure FS where
  files : List (FPath × Bytes)
  dirs : List FPath
deriving DecidableEq

/-- Path::new(p).exists(): a file or a directory exists at the path. -/
def path_exists (fs : FS) (p : FPath) : Bool :=
  (assocGet fs.files p).isSome || fs.dirs.contains p

/-- fs::create_dir_all: record the directory (and leave files untouched). -/
def create_dir_all (fs : FS) (d : FPath) : FS :=
  { fs with dirs := if fs.dirs.contains d then fs.dirs else d :: fs.dirs }

/-- File::create / Write::write: the file at p now holds content. -/
def file_write (fs : FS) (p : FPath) (content : Bytes) : FS :=
  { fs with files := assocPut fs.files p content }

def file_remove (fs : FS) (p : FPath) : FS :=
  { fs with files := assocRemove fs.files p }

/-- fs::rename: move the file at src to dst (overwriting dst). -/
def fs_rename (fs : FS) (src dst : FPath) : Option FS :=
  match assocGet fs.files src with
  | Option.none => Option.none
  | Option.some content => Option.some (file_write (file_remove fs src) dst content)

-- ==========================================================================
-- Path derivation (HashIO::directory_for_hash / filename_for_hash).
-- The Rust code slices the hex string at byte indices 0..2 and 2..; for a
-- hex string shorter than 2 characters these slices panic, which the model
-- expresses by returning Option.none.
-- ==========================================================================

/-- HashIO::directory_for_hash: base/, first two hex digits, /. -/
def directory_for_hash (base : FPath) (hash : Hash) : Option FPath :=
  let hash_str := Hash.as_string hash
  if 2 ≤ hash_str.length then
    Option.some (base ++ ['/'] ++ hash_str.take 2 ++ ['/'])
  else Option.none

/-- HashIO::filename_for_hash: directory followed by the remaining hex digits. -/
def filename_for_hash (base : FPath) (hash : Hash) : Option FPath :=
  let hash_str := Hash.as_string hash
  match directory_for_hash base hash with
  | Option.none => Option.none
  | Option.some dir =>
      if 2 ≤ hash_str.length then Option.some (dir ++ hash_str.drop 2)
      else Option.none

/-- The temporary path used during put: the final path with a trailing underscore. -/
def safe_name (p : FPath) : FPath := p ++ ['_']

-- ==========================================================================
-- HashIO::put.  The body is generic over the HashIOImpl instance: the
-- store_childs member is passed as a state transformer that also reports
-- the file system states it passed through, and store_hashable is passed
-- as the byte record it writes.  Beside its result, put returns the full
-- list of intermediate file system states (every point at which the
-- process could be interrupted), final state included; writing the record
-- to the temporary file is decomposed into one state per byte.
-- ==========================================================================

/-- The intermediate states of writing content to p byte by byte. -/
def write_states (fs : FS) (p : FPath) (content : Bytes) : List FS :=
  (List.range (content.length + 1)).map (fun k => file_write fs p (content.take k))

/-- The default HashIOImpl::store_childs: do nothing, succeed. -/
def child_none : FS → PRes FS × List FS :=
  fun fs => (PRes.ok fs, [])

/-- HashIO::put, parameterized by the HashIOImpl instance of the stored type. -/
def putCore (base : FPath) (store_childs : FS → PRes FS × List FS)
    (record : Bytes) (hash : Hash) (fs : FS) : PRes FS × List FS :=
  match filename_for_hash base hash with
  | Option.none => (PRes.panic, [fs])
  | Option.some filename =>
    -- if the entry already exists, skip the insert
    if path_exists fs filename then (PRes.ok fs, [fs])
    else
      -- first store all childs and their childs
      match store_childs fs with
      | (PRes.panic, tr) => (PRes.panic, fs :: tr)
      | (PRes.err e, tr) => (PRes.err e, fs :: tr)
      | (PRes.ok fs1, tr) =>
        let safe_filename := safe_name filename
        match directory_for_hash base hash with
        | Option.none => (PRes.panic, fs :: tr)
        | Option.some dir =>
          let fs2 := create_dir_all fs1 dir
          let ws := write_states fs2 safe_filename record
          let fs3 := file_write fs2 safe_filename record
          match fs_rename fs3 safe_filename filename with
          | Option.none =>
              (PRes.err (HashIOError.IOError ['r']), (fs :: tr ++ [fs2]) ++ ws)
          | Option.some fs4 =>
              (PRes.ok fs4, ((fs :: tr ++ [fs2]) ++ ws) ++ [fs4])

-- ==========================================================================
-- Byte writers.  io.rs is not part of src/.
-- ==========================================================================

/--
Modelled from the spec: io.rs (write_u32) is missing from src/; the spec
fixes a 4-byte u32 field with a writer-chosen endianness, taken big-endian.
-/
def write_u32 (n : Nat) : Bytes :=
  [n / 2^24 % 256, n / 2^16 % 256, n / 2^8 % 256, n % 256]

/--
Modelled from the spec: io.rs (write_u8) is missing from src/; one byte.
-/
def write_u8 (n : Nat) : Bytes := [n % 256]

/--
Modelled from the spec: io.rs (write_hash) is missing from src/; the spec
fixes 32-byte child-reference hashes, so the digest bytes are written.
-/
def write_hash (h : Hash) : Bytes := Hash.get_bytes h

/-- ASCII bytes of a Lean string literal, for type identifiers. -/
def strBytes (s : String) : Bytes := s.toList.map Char.toNat

/--
Modelled from the spec: the Writable impl of String (hash.rs, missing from
src/) writes the text as a length-prefixed byte sequence, matching the
reader in hashio.rs (read_u32 length, then the bytes).
-/
def str_record (s : Bytes) : Bytes := write_u32 s.length ++ s

/-- String::as_hash: hash of the canonical serialization (hashable_for_writable). -/
def str_hash (s : Bytes) : Hash := Hash.hash_bytes (str_record s)

/-- impl Typeable for String: hash of the identifier bytes. -/
def type_hash_String : Hash := Hash.hash_bytes (strBytes "String")

-- ==========================================================================
-- The tbd_model declared type A of the hashio.rs test module (mod test2):
-- tbd_model!(A, [[a: u8, write_u8, read_u8]], [[b: String]]) -
-- one u8 scalar field and one String child field.
-- ==========================================================================

/-- The struct generated by tbd_model for A; the String child is byte content. -/
structure Amodel where
  a : Nat
  b : Bytes
deriving DecidableEq

/-- Typeable for A: hash of the scalar type-name hash and the child type hash. -/
def type_hash_A : Hash :=
  Hash.hash_bytes
    (Hash.get_bytes (Hash.hash_bytes (strBytes "u8")) ++
     Hash.get_bytes type_hash_String)

/-- Writable for A: version 1, type hash, scalar fields, child hashes. -/
def a_record (v : Amodel) : Bytes :=
  write_u32 1 ++ write_hash type_hash_A ++ write_u8 v.a ++ write_hash (str_hash v.b)

/-- A::as_hash (hashable_for_writable). -/
def a_hash (v : Amodel) : Hash := Hash.hash_bytes (a_record v)

/-- HashIO::put at type String (store_childs is the default no-op). -/
def put_str (base : FPath) (fs : FS) (s : Bytes) : PRes FS × List FS :=
  putCore base child_none (str_record s) (str_hash s) fs

/-- HashIO::put at type A (store_childs puts the String child b). -/
def put_A (base : FPath) (fs : FS) (v : Amodel) : PRes FS × List FS :=
  putCore base (fun fs1 => put_str base fs1 v.b) (a_record v) (a_hash v) fs

-- ==========================================================================
-- Byte readers (io.rs, missing from src/) and decoding.
-- ==========================================================================

/--
Modelled from the spec: io.rs (read_u32) is missing from src/; reads the
4-byte big-endian u32 written by write_u32, I/O error on early end of input.
-/
def read_u32 : Bytes → PRes (Nat × Bytes)
  | b0 :: b1 :: b2 :: b3 :: rest =>
      PRes.ok (((b0 * 256 + b1) * 256 + b2) * 256 + b3, rest)
  | _ => PRes.err (HashIOError.IOError ['e'])

/-- Modelled from the spec: io.rs (read_u8) is missing from src/; one byte. -/
def read_u8 : Bytes → PRes (Nat × Bytes)
  | b :: rest => PRes.ok (b, rest)
  | _ => PRes.err (HashIOError.IOError ['e'])

/--
Modelled from the spec: io.rs (read_bytes) is missing from src/; reads
exactly n bytes, I/O error on early end of input.
-/
def read_bytes (n : Nat) (s : Bytes) : PRes (Bytes × Bytes) :=
  if n ≤ s.length then PRes.ok (s.take n, s.drop n)
  else PRes.err (HashIOError.IOError ['e'])

/--
Modelled from the spec: io.rs (read_hash) is missing from src/; reads a
32-byte digest into the Sha3 variant.
-/
def read_hash (s : Bytes) : PRes (Hash × Bytes) :=
  if h : 32 ≤ s.length then
    PRes.ok (Hash.sha3 ⟨s.take 32, by rw [List.length_take]; omega⟩, s.drop 32)
  else PRes.err (HashIOError.IOError ['e'])

/--
UTF-8 validity of a byte sequence (RFC 3629), modelling the
String::from_utf8 check done by the String receive_hashable.
-/
def utf8_valid : Bytes → Bool
  | [] => true
  | b :: rest =>
    if b < 0x80 then utf8_valid rest
    else if b < 0xC2 then false
    else if b < 0xE0 then
      match rest with
      | c1 :: r2 => decide (0x80 ≤ c1) && decide (c1 < 0xC0) && utf8_valid r2
      | _ => false
    else if b < 0xF0 then
      match rest with
      | c1 :: c2 :: r2 =>
          (if b = 0xE0 then decide (0xA0 ≤ c1) && decide (c1 < 0xC0)
           else if b = 0xED then decide (0x80 ≤ c1) && decide (c1 < 0xA0)
           else decide (0x80 ≤ c1) && decide (c1 < 0xC0)) &&
          (decide (0x80 ≤ c2) && decide (c2 < 0xC0)) && utf8_valid r2
      | _ => false
    else if b < 0xF5 then
      match rest with
      | c1 :: c2 :: c3 :: r2 =>
          (if b = 0xF0 then decide (0x90 ≤ c1) && decide (c1 < 0xC0)
           else if b = 0xF4 then decide (0x80 ≤ c1) && decide (c1 < 0x90)
           else decide (0x80 ≤ c1) && decide (c1 < 0xC0)) &&
          (decide (0x80 ≤ c2) && decide (c2 < 0xC0)) &&
          (decide (0x80 ≤ c3) && decide (c3 < 0xC0)) && utf8_valid r2
      | _ => false
    else false

/-- HashIOImpl of String, receive_hashable: length, bytes, UTF-8 validation. -/
def receive_hashable_str (stream : Bytes) : PRes Bytes :=
  pbind (read_u32 stream) (fun p =>
  pbind (read_bytes p.1 p.2) (fun q =>
  if utf8_valid q.1 then PRes.ok q.1
  else PRes.err (HashIOError.ParseError ['u'])))

/-- HashIO::get at type String: open the derived path, decode the record. -/
def hashio_get_str (base : FPath) (fs : FS) (hash : Hash) : PRes Bytes :=
  match filename_for_hash base hash with
  | Option.none => PRes.panic
  | Option.some filename =>
    match assocGet fs.files filename with
    | Option.none => PRes.err (HashIOError.IOError ['o'])
    | Option.some content => receive_hashable_str content

/--
The internal_receive generated by tbd_model, generic in the declared type:
version check, type hash check, then the scalar and child fields.
-/
def internal_receive {T : Type} (typeHash : Hash) (fields : Bytes → PRes T)
    (stream : Bytes) : PRes T :=
  pbind (read_u32 stream) (fun p =>
  if p.1 < 1 then PRes.err (HashIOError.VersionError p.1)
  else
    pbind (read_hash p.2) (fun q =>
    if q.1 ≠ typeHash then PRes.err (HashIOError.TypeError q.1)
    else fields q.2))

/-- The scalar and child fields of A: read_u8 a, read the child hash, get b. -/
def a_fields (base : FPath) (fs : FS) (stream : Bytes) : PRes Amodel :=
  pbind (read_u8 stream) (fun p =>
  pbind (read_hash p.2) (fun q =>
  pbind (hashio_get_str base fs q.1) (fun b =>
  PRes.ok ⟨p.1, b⟩)))

/-- A::internal_receive. -/
def internal_receive_A (base : FPath) (fs : FS) (stream : Bytes) : PRes Amodel :=
  internal_receive type_hash_A (a_fields base fs) stream

/-- flex_no: the default migration fallback, always None. -/
def flex_no {T : Type} (hash : Hash) : Option T :=
  Option.none

/--
tbd_convert_chain: try the convert functions in declared order, return the
first success, None when all fail.  The per-function inputs (hash and the
two stores) are abstracted into one argument x.
-/
def tbd_convert_chain {α T : Type} (fns : List (α → Option T)) (x : α) : Option T :=
  match fns with
  | [] => Option.none
  | f :: rest =>
      match f x with
      | Option.some res => Option.some res
      | Option.none => tbd_convert_chain rest x

/--
The receive_hashable generated by tbd_model: on success pass the value
through, on error consult the flex function and only return the original
error when it yields None.
-/
def receive_hashable_flex {T : Type} (internal : PRes T) (flex : Option T) : PRes T :=
  match internal with
  | PRes.ok res => PRes.ok res
  | PRes.err e =>
      (match flex with
       | Option.none => PRes.err e
       | Option.some res => PRes.ok res)
  | PRes.panic => PRes.panic

/-- A::receive_hashable (the flex function of A in mod test2 is flex_no). -/
def receive_hashable_A (base : FPath) (fs : FS) (stream : Bytes) (hash : Hash) :
    PRes Amodel :=
  receive_hashable_flex (internal_receive_A base fs stream) (flex_no hash)

/-- HashIO::get at type A. -/
def hashio_get_A (base : FPath) (fs : FS) (hash : Hash) : PRes Amodel :=
  match filename_for_hash base hash with
  | Option.none => PRes.panic
  | Option.some filename =>
    match assocGet fs.files filename with
    | Option.none => PRes.err (HashIOError.IOError ['o'])
    | Option.some content => receive_hashable_A base fs content hash

/--
The MyStruct item of the log.rs doc test: a single u8 written as one byte,
hashed through writeable_to_hash.
-/
def mystruct_hash (x : Nat) : Hash := Hash.hash_bytes [x % 256]

/-- Checks a Bool property of the value inside an ok result (true otherwise). -/
def on_ok {α : Type} (r : PRes α) (p : α → Bool) : Bool :=
  match r with
  | PRes.ok a => p a
  | _ => true

/-- The value inside an ok result, with a default. -/
def pres_get {α : Type} (r : PRes α) (d : α) : α :=
  match r with
  | PRes.ok a => a
  | _ => d

-- Concrete instances used to exercise the theorems below.

def w_base : FPath := ("base").toList

def w_str : Bytes := strBytes "Test"

def w_A : Amodel := ⟨10, w_str⟩

def w_fileA : FPath := (filename_for_hash w_base (a_hash w_A)).getD []

def w_fileStr : FPath := (filename_for_hash w_base (str_hash w_str)).getD []

def w_fs0 : FS := ⟨[], []⟩

def w_fs1 : FS := ⟨[(w_fileStr, str_record w_str)], []⟩

/-- A store state holding a valid record of w_A filed under an unrelated hash. -/
def c9_target : Hash := str_hash (strBytes "y")

def c9_fs : FS :=
  ⟨[((filename_for_hash w_base c9_target).getD [], a_record w_A),
    (w_fileStr, str_record w_str)],
   []⟩

-- ==========================================================================
-- Theorems
-- ==========================================================================

theorem assocGet_assocPut_self {κ β : Type} [DecidableEq κ]
    (m : List (κ × β)) (k : κ) (v : β) :
    assocGet (assocPut m k v) k = Option.some v := by
  induction m with
  | nil => simp [assocGet, assocPut]
  | cons hd tl ih =>
      obtain ⟨k1, v1⟩ := hd
      by_cases h : k1 = k
      · simp [assocGet, assocPut, h]
      · simp [assocGet, assocPut, h, ih]

theorem assocGet_assocPut_ne {κ β : Type} [DecidableEq κ]
    (m : List (κ × β)) (k k2 : κ) (v : β) (h : k2 ≠ k) :
    assocGet (assocPut m k v) k2 = assocGet m k2 := by
  have hk : k ≠ k2 := Ne.symm h
  induction m with
  | nil => simp [assocGet, assocPut, hk]
  | cons hd tl ih =>
      obtain ⟨k1, v1⟩ := hd
      by_cases h1 : k1 = k
      · subst h1
        simp [assocGet, assocPut, hk]
      · simp [assocGet, assocPut, h1, ih]

theorem assocGet_assocRemove_ne {κ β : Type} [DecidableEq κ]
    (m : List (κ × β)) (k k2 : κ) (h : k2 ≠ k) :
    assocGet (assocRemove m k) k2 = assocGet m k2 := by
  have hk : k ≠ k2 := Ne.symm h
  induction m with
  | nil => simp [assocRemove]
  | cons hd tl ih =>
      obtain ⟨k1, v1⟩ := hd
      by_cases h1 : k1 = k
      · subst h1
        simp [assocGet, assocRemove, hk, ih]
      · simp [assocGet, assocRemove, h1, ih]

/--
C1 as amended: push computes the content hash c of the item; the new entry
hash is the re-hash of c (c.as_hash(), SHA3-256 of the digest bytes) when
the log was empty, otherwise c.hash_with(previous head); the entry is
inserted under the new hash with parent_hash the previous head; the head is
set to the new hash and returned; pushing a then b yields
parent_hash(second result) = first result; and on the doc-test items (42
then 23 from a fresh log) the two hashes are distinct, with the hex strings
asserted by the doc test of log.rs.
-/
theorem C1_push_spec :
    (∀ (T : Type) (itemHash : T → Hash) (log : DefaultLog T) (a : T),
      (push itemHash log a).2 =
        (match log.head with
         | Option.none => hash_as_hash (itemHash a)
         | Option.some prev => Hash.hash_with (itemHash a) prev) ∧
      log_get (push itemHash log a).1 (push itemHash log a).2 = Option.some a ∧
      parent_hash (push itemHash log a).1 (push itemHash log a).2 = log.head ∧
      (push itemHash log a).1.head = Option.some (push itemHash log a).2) ∧
    (∀ (T : Type) (itemHash : T → Hash) (log : DefaultLog T) (a b : T),
      parent_hash (push itemHash (push itemHash log a).1 b).1
          (push itemHash (push itemHash log a).1 b).2 =
        Option.some (push itemHash log a).2) ∧
    ((push mystruct_hash (push mystruct_hash (DefaultLog.new Nat) 42).1 23).2 ≠
        (push mystruct_hash (DefaultLog.new Nat) 42).2 ∧
      Hash.as_string (push mystruct_hash (DefaultLog.new Nat) 42).2 =
        ("377194384a7432ebd8d8e0f19a1bcc17f115a220d48e280f8d75b6a5b43c3e1d").toList ∧
      Hash.as_string (push mystruct_hash (push mystruct_hash (DefaultLog.new Nat) 42).1 23).2 =
        ("5894a38091d60a64cb6396edc2662c6460c3685b78b4381051dbc15ff30c5bcc").toList) := by
  refine ⟨?_, ?_, by decide⟩
  · intro T itemHash log a
    refine ⟨rfl, ?_, ?_, rfl⟩
    · simp [push, log_get, assocGet_assocPut_self]
    · simp [push, parent_hash, assocGet_assocPut_self]
  · intro T itemHash log a b
    simp [push, parent_hash, assocGet_assocPut_self]

/--
C1 counterexample: the claim that the new entry hash equals the content
hash c itself when the log was empty is false of the code: pushing the
doc-test item 42 onto a fresh log returns the re-hash of c
(entry_hash.as_hash(), SHA3-256 of the digest bytes of c), which differs
from c.
-/
theorem C1_push_empty_not_content_hash :
    (push mystruct_hash (DefaultLog.new Nat) 42).2 ≠ mystruct_hash 42 := by
  decide

/--
C2 evaluation: with entries 1, 2, 3 pushed in order, the by-reference
iterator yields the entries most recent first, but the by-hash iterator
yields the parent hashes (second and first entry hash) and is exhausted
after two steps, not the three hashes the spec promises: its next method
returns the cursor after overwriting it with the parent hash.
-/
theorem C2_hash_iterator_eval :
    (iter_ref_items
        (push mystruct_hash (push mystruct_hash (push mystruct_hash (DefaultLog.new Nat) 1).1 2).1 3).1
        (iter_start (push mystruct_hash (push mystruct_hash (push mystruct_hash (DefaultLog.new Nat) 1).1 2).1 3).1)
        10 = [3, 2, 1]) ∧
    (iter_hash_items
        (push mystruct_hash (push mystruct_hash (push mystruct_hash (DefaultLog.new Nat) 1).1 2).1 3).1
        (iter_start (push mystruct_hash (push mystruct_hash (push mystruct_hash (DefaultLog.new Nat) 1).1 2).1 3).1)
        10 =
      [(push mystruct_hash (push mystruct_hash (DefaultLog.new Nat) 1).1 2).2,
       (push mystruct_hash (DefaultLog.new Nat) 1).2]) ∧
    (iter_hash_items
        (push mystruct_hash (push mystruct_hash (push mystruct_hash (DefaultLog.new Nat) 1).1 2).1 3).1
        (iter_start (push mystruct_hash (push mystruct_hash (push mystruct_hash (DefaultLog.new Nat) 1).1 2).1 3).1)
        10 ≠
      [(push mystruct_hash (push mystruct_hash (push mystruct_hash (DefaultLog.new Nat) 1).1 2).1 3).2,
       (push mystruct_hash (push mystruct_hash (DefaultLog.new Nat) 1).1 2).2,
       (push mystruct_hash (DefaultLog.new Nat) 1).2]) := by
  refine ⟨by decide, by decide, by decide⟩

theorem ne_safe_name (p : FPath) : p ≠ safe_name p := by
  intro h
  have := congrArg List.length h
  simp [safe_name] at this

theorem filename_some_elim (base : FPath) (hash : Hash) (f : FPath)
    (hf : filename_for_hash base hash = Option.some f) :
    ∃ dir, directory_for_hash base hash = Option.some dir := by
  unfold filename_for_hash at hf
  rcases hd : directory_for_hash base hash with _ | dir
  · rw [hd] at hf
    simp at hf
  · exact ⟨dir, rfl⟩

/--
C4: when a file already exists at the path derived from the content hash,
put returns success immediately and the resulting state is the initial one
with no intermediate states: no child stored, no directory created, no
temporary file written, the existing file untouched.
-/
theorem C4_put_skip_when_exists (base : FPath) (store_childs : FS → PRes FS × List FS)
    (record : Bytes) (hash : Hash) (fs : FS) (filename : FPath)
    (hf : filename_for_hash base hash = Option.some filename)
    (hex : path_exists fs filename = true) :
    putCore base store_childs record hash fs = (PRes.ok fs, [fs]) := by
  simp [putCore, hf, hex]

/--
C5: starting from a state with no file at the final path, every
intermediate state of put (any interruption point: during the child phase,
after directory creation, after any prefix of the temporary write, or the
completed run) has either no file at the final path or the complete record;
and a completed put leaves the complete record at the final path.  The
child phase is constrained only by the frame hypotheses that it never
writes to this final path.
-/
theorem C5_put_atomic (base : FPath) (store_childs : FS → PRes FS × List FS)
    (record : Bytes) (hash : Hash) (fs : FS) (filename : FPath)
    (hf : filename_for_hash base hash = Option.some filename)
    (h0 : assocGet fs.files filename = Option.none)
    (hd0 : filename ∉ fs.dirs)
    (hframe : ∀ s ∈ (store_childs fs).2, assocGet s.files filename = Option.none)
    (hres : on_ok (store_childs fs).1
        (fun fs1 => (assocGet fs1.files filename).isNone) = true) :
    (∀ s ∈ (putCore base store_childs record hash fs).2,
        assocGet s.files filename = Option.none ∨
        assocGet s.files filename = Option.some record) ∧
    (∀ fsF, (putCore base store_childs record hash fs).1 = PRes.ok fsF →
        assocGet fsF.files filename = Option.some record) := by
  obtain ⟨dir, hdir⟩ := filename_some_elim base hash filename hf
  have hpe : path_exists fs filename = false := by
    simp [path_exists, h0, hd0]
  rcases hcs : store_childs fs with ⟨res, tr⟩
  have hframe2 : ∀ s ∈ tr, assocGet s.files filename = Option.none := by
    intro s hs
    exact hframe s (by rw [hcs]; exact hs)
  cases res with
  | panic =>
      constructor
      · intro s hs
        simp only [putCore, hf, hpe, hcs, Bool.false_eq_true, if_false] at hs
        rcases List.mem_cons.mp hs with h | h
        · subst h
          exact Or.inl h0
        · exact Or.inl (hframe2 s h)
      · intro fsF hF
        simp [putCore, hf, hpe, hcs] at hF
  | err e =>
      constructor
      · intro s hs
        simp only [putCore, hf, hpe, hcs, Bool.false_eq_true, if_false] at hs
        rcases List.mem_cons.mp hs with h | h
        · subst h
          exact Or.inl h0
        · exact Or.inl (hframe2 s h)
      · intro fsF hF
        simp [putCore, hf, hpe, hcs] at hF
  | ok fs1 =>
      have h1 : assocGet fs1.files filename = Option.none := by
        rw [hcs] at hres
        simpa [on_ok, Option.isNone_iff_eq_none] using hres
      have hsafe : filename ≠ safe_name filename := ne_safe_name filename
      -- the state after create_dir_all has the same files as fs1
      have h2 : assocGet (create_dir_all fs1 dir).files filename = Option.none := by
        simpa [create_dir_all] using h1
      have h3 : assocGet (file_write (create_dir_all fs1 dir) (safe_name filename) record).files
          (safe_name filename) = Option.some record := by
        simp [file_write, assocGet_assocPut_self]
      have hput : putCore base store_childs record hash fs =
          (PRes.ok (file_write
              (file_remove (file_write (create_dir_all fs1 dir) (safe_name filename) record)
                (safe_name filename)) filename record),
           ((fs :: tr ++ [create_dir_all fs1 dir]) ++
              write_states (create_dir_all fs1 dir) (safe_name filename) record) ++
             [file_write
               (file_remove (file_write (create_dir_all fs1 dir) (safe_name filename) record)
                 (safe_name filename)) filename record]) := by
        simp only [putCore, hf, hpe, hcs, hdir, Bool.false_eq_true, if_false]
        rw [fs_rename, h3]
      constructor
      · intro s hs
        rw [hput] at hs
        rcases List.mem_append.mp hs with hrest | hlast
        · rcases List.mem_append.mp hrest with hpre | hws
          · rcases List.mem_cons.mp hpre with hinit | hmid
            · subst hinit
              exact Or.inl h0
            · rcases List.mem_append.mp hmid with htr | hdirst
              · exact Or.inl (hframe2 s htr)
              · rw [List.mem_singleton.mp hdirst]
                exact Or.inl h2
          · -- a partial write to the temporary file
            simp only [write_states, List.mem_map, List.mem_range] at hws
            obtain ⟨k, _, hk⟩ := hws
            subst hk
            refine Or.inl ?_
            rw [file_write]
            calc assocGet (assocPut (create_dir_all fs1 dir).files (safe_name filename)
                    (record.take k)) filename
                = assocGet (create_dir_all fs1 dir).files filename :=
                  assocGet_assocPut_ne _ _ _ _ hsafe
              _ = Option.none := h2
        · rw [List.mem_singleton.mp hlast]
          refine Or.inr ?_
          simp [file_write, assocGet_assocPut_self]
      · intro fsF hF
        rw [hput] at hF
        cases hF
        simp [file_write, assocGet_assocPut_self]

/--
C6: for a put whose child phase persists every child field (the files at
the child paths exist in the state the child phase returns), every
intermediate state of put in which the parent record is visible at its
final path already has all child files present: children are durable
before the parent becomes visible.
-/
theorem C6_children_before_parent (base : FPath) (store_childs : FS → PRes FS × List FS)
    (record : Bytes) (hash : Hash) (fs : FS) (filename : FPath) (CP : List FPath)
    (hf : filename_for_hash base hash = Option.some filename)
    (h0 : assocGet fs.files filename = Option.none)
    (hd0 : filename ∉ fs.dirs)
    (hframe : ∀ s ∈ (store_childs fs).2, assocGet s.files filename = Option.none)
    (hres : on_ok (store_childs fs).1
        (fun fs1 => (assocGet fs1.files filename).isNone &&
          CP.all (fun cp => (assocGet fs1.files cp).isSome)) = true)
    (hcp : ∀ cp ∈ CP, cp ≠ filename ∧ cp ≠ safe_name filename) :
    ∀ s ∈ (putCore base store_childs record hash fs).2,
      (assocGet s.files filename).isSome = true →
      ∀ cp ∈ CP, (assocGet s.files cp).isSome = true := by
  obtain ⟨dir, hdir⟩ := filename_some_elim base hash filename hf
  have hpe : path_exists fs filename = false := by
    simp [path_exists, h0, hd0]
  rcases hcs : store_childs fs with ⟨res, tr⟩
  have hframe2 : ∀ s ∈ tr, assocGet s.files filename = Option.none := by
    intro s hs
    exact hframe s (by rw [hcs]; exact hs)
  cases res with
  | panic =>
      intro s hs hvis
      simp only [putCore, hf, hpe, hcs, Bool.false_eq_true, if_false] at hs
      rcases List.mem_cons.mp hs with h | h
      · subst h
        rw [h0] at hvis
        simp at hvis
      · rw [hframe2 s h] at hvis
        simp at hvis
  | err e =>
      intro s hs hvis
      simp only [putCore, hf, hpe, hcs, Bool.false_eq_true, if_false] at hs
      rcases List.mem_cons.mp hs with h | h
      · subst h
        rw [h0] at hvis
        simp at hvis
      · rw [hframe2 s h] at hvis
        simp at hvis
  | ok fs1 =>
      rw [hcs] at hres
      simp only [on_ok, Bool.and_eq_true, List.all_eq_true,
        Option.isNone_iff_eq_none] at hres
      obtain ⟨h1, hkids⟩ := hres
      have hsafe : filename ≠ safe_name filename := ne_safe_name filename
      have h2 : assocGet (create_dir_all fs1 dir).files filename = Option.none := by
        simpa [create_dir_all] using h1
      have h3 : assocGet (file_write (create_dir_all fs1 dir) (safe_name filename) record).files
          (safe_name filename) = Option.some record := by
        simp [file_write, assocGet_assocPut_self]
      have hput : putCore base store_childs record hash fs =
          (PRes.ok (file_write
              (file_remove (file_write (create_dir_all fs1 dir) (safe_name filename) record)
                (safe_name filename)) filename record),
           ((fs :: tr ++ [create_dir_all fs1 dir]) ++
              write_states (create_dir_all fs1 dir) (safe_name filename) record) ++
             [file_write
               (file_remove (file_write (create_dir_all fs1 dir) (safe_name filename) record)
                 (safe_name filename)) filename record]) := by
        simp only [putCore, hf, hpe, hcs, hdir, Bool.false_eq_true, if_false]
        rw [fs_rename, h3]
      intro s hs hvis
      rw [hput] at hs
      rcases List.mem_append.mp hs with hrest | hlast
      · exfalso
        rcases List.mem_append.mp hrest with hpre | hws
        · rcases List.mem_cons.mp hpre with hinit | hmid
          · subst hinit
            rw [h0] at hvis
            simp at hvis
          · rcases List.mem_append.mp hmid with htr | hdirst
            · rw [hframe2 s htr] at hvis
              simp at hvis
            · rw [List.mem_singleton.mp hdirst] at hvis
              rw [h2] at hvis
              simp at hvis
        · simp only [write_states, List.mem_map, List.mem_range] at hws
          obtain ⟨k, _, hk⟩ := hws
          subst hk
          rw [file_write] at hvis
          rw [show assocGet (assocPut (create_dir_all fs1 dir).files (safe_name filename)
                (record.take k)) filename
              = assocGet (create_dir_all fs1 dir).files filename from
              assocGet_assocPut_ne _ _ _ _ hsafe, h2] at hvis
          simp at hvis
      · rw [List.mem_singleton.mp hlast]
        intro cp hcpm
        obtain ⟨hcp1, hcp2⟩ := hcp cp hcpm
        have hk := hkids cp hcpm
        rw [file_write, file_remove, file_write]
        calc (assocGet (assocPut (assocRemove
                (assocPut (create_dir_all fs1 dir).files (safe_name filename) record)
                (safe_name filename)) filename record) cp).isSome
            = (assocGet (assocRemove
                (assocPut (create_dir_all fs1 dir).files (safe_name filename) record)
                (safe_name filename)) cp).isSome := by
              rw [assocGet_assocPut_ne _ _ _ _ hcp1]
          _ = (assocGet (assocPut (create_dir_all fs1 dir).files (safe_name filename) record)
                cp).isSome := by
              rw [assocGet_assocRemove_ne _ _ _ hcp2]
          _ = (assocGet (create_dir_all fs1 dir).files cp).isSome := by
              rw [assocGet_assocPut_ne _ _ _ _ hcp2]
          _ = true := by
              simpa [create_dir_all] using hk

theorem tbd_convert_chain_all_none {α T : Type} (fns : List (α → Option T)) (x : α)
    (h : ∀ f ∈ fns, f x = Option.none) : tbd_convert_chain fns x = Option.none := by
  induction fns with
  | nil => rfl
  | cons f rest ih =>
      have hf : f x = Option.none := h f (List.mem_cons_self f rest)
      simp only [tbd_convert_chain, hf]
      exact ih (fun g hg => h g (List.mem_cons_of_mem f hg))

theorem tbd_convert_chain_first {α T : Type} (pre post : List (α → Option T))
    (f : α → Option T) (x : α) (r : T)
    (hpre : ∀ g ∈ pre, g x = Option.none) (hf : f x = Option.some r) :
    tbd_convert_chain (pre ++ f :: post) x = Option.some r := by
  induction pre with
  | nil => simp [tbd_convert_chain, hf]
  | cons g rest ih =>
      have hg : g x = Option.none := hpre g (List.mem_cons_self g rest)
      simp only [List.cons_append, tbd_convert_chain, hg]
      exact ih (fun g2 hg2 => hpre g2 (List.mem_cons_of_mem g hg2))

/--
C3: when the primary decode fails, the generated receive_hashable runs the
declared migration chain: the candidates are tried in declared order, the
first success is returned to the caller, and the original decode error is
returned exactly when every candidate fails; a primary success is passed
through untouched.
-/
theorem C3_migration_chain {α T : Type} (internal : PRes T)
    (fns : List (α → Option T)) (x : α) :
    (∀ r, internal = PRes.ok r →
        receive_hashable_flex internal (tbd_convert_chain fns x) = PRes.ok r) ∧
    (∀ e, internal = PRes.err e →
        (∀ pre f post r, fns = pre ++ f :: post →
            (∀ g ∈ pre, g x = Option.none) → f x = Option.some r →
            receive_hashable_flex internal (tbd_convert_chain fns x) = PRes.ok r) ∧
        ((∀ f ∈ fns, f x = Option.none) →
            receive_hashable_flex internal (tbd_convert_chain fns x) = PRes.err e)) := by
  constructor
  · intro r h
    rw [h]
    rfl
  · intro e h
    constructor
    · intro pre f post r hsplit hpre hf
      rw [h, hsplit, tbd_convert_chain_first pre post f x r hpre hf]
      rfl
    · intro hall
      rw [h, tbd_convert_chain_all_none fns x hall]
      rfl

/--
C7: the decode generated by tbd_model validates the header before touching
field data: a version tag below 1 reports VersionError carrying that
version; otherwise an embedded type hash different from the computed type
hash of the declared type reports TypeError carrying the embedded hash;
only when both checks pass are the field decoders consulted.  The decode
of the declared type A is an instance of this shape.
-/
theorem C7_decode_validation {T : Type} (typeHash : Hash)
    (fields : Bytes → PRes T) (stream : Bytes) :
    (∀ v rest, read_u32 stream = PRes.ok (v, rest) → v < 1 →
        internal_receive typeHash fields stream =
          PRes.err (HashIOError.VersionError v)) ∧
    (∀ v rest th rest2, read_u32 stream = PRes.ok (v, rest) → 1 ≤ v →
        read_hash rest = PRes.ok (th, rest2) → th ≠ typeHash →
        internal_receive typeHash fields stream =
          PRes.err (HashIOError.TypeError th)) ∧
    (∀ v rest th rest2, read_u32 stream = PRes.ok (v, rest) → 1 ≤ v →
        read_hash rest = PRes.ok (th, rest2) → th = typeHash →
        internal_receive typeHash fields stream = fields rest2) ∧
    (∀ base fs st, internal_receive_A base fs st =
        internal_receive type_hash_A (a_fields base fs) st) := by
  refine ⟨?_, ?_, ?_, fun base fs st => rfl⟩
  · intro v rest h1 hv
    have hv0 : v = 0 := by omega
    subst hv0
    simp [internal_receive, pbind, h1]
  · intro v rest th rest2 h1 hv h2 hth
    have hv0 : ¬ v = 0 := by omega
    simp [internal_receive, pbind, h1, hv0, h2, hth]
  · intro v rest th rest2 h1 hv h2 hth
    subst hth
    have hv0 : ¬ v = 0 := by omega
    simp [internal_receive, pbind, h1, hv0, h2]

theorem bytes_to_string_length (l : Bytes) :
    (bytes_to_string l).length = 2 * l.length := by
  induction l with
  | nil => rfl
  | cons b rest ih =>
      simp [bytes_to_string, byte_to_string, ih]
      ring

/--
C8: path derivation is not total over Hash: the empty variant has the
empty hex string, so directory_for_hash and filename_for_hash index it out
of bounds (a panic, modelled as Option.none), and get panics when asked
for the empty digest; for every real 256-bit digest the derivation
succeeds.
-/
theorem C8_path_derivation_panics (base : FPath) (fs : FS) :
    Hash.as_string Hash.none = [] ∧
    directory_for_hash base Hash.none = Option.none ∧
    filename_for_hash base Hash.none = Option.none ∧
    hashio_get_str base fs Hash.none = PRes.panic ∧
    hashio_get_A base fs Hash.none = PRes.panic ∧
    (∀ b : Bytes32, (filename_for_hash base (Hash.sha3 b)).isSome = true) := by
  have hd : directory_for_hash base Hash.none = Option.none := by
    simp [directory_for_hash, Hash.as_string, Hash.get_bytes, bytes_to_string]
  have hfn : filename_for_hash base Hash.none = Option.none := by
    simp [filename_for_hash, hd]
  refine ⟨rfl, hd, hfn, ?_, ?_, ?_⟩
  · simp [hashio_get_str, hfn]
  · simp [hashio_get_A, hfn]
  · intro b
    have hl : (Hash.as_string (Hash.sha3 b)).length = 64 := by
      simp [Hash.as_string, Hash.get_bytes, bytes_to_string_length, b.2]
    simp [filename_for_hash, directory_for_hash, hl]

/--
C9: get never re-checks content addressing: in the concrete store state
c9_fs, whose file at the path derived from the hash of the string y holds
a valid record of the A value w_A, getting that hash succeeds and returns
a value whose content hash differs from the requested hash.
-/
theorem C9_get_no_content_check :
    hashio_get_A w_base c9_fs c9_target = PRes.ok w_A ∧
    a_hash w_A ≠ c9_target := by
  refine ⟨by decide, by decide⟩

/--
C10: the Hashable impl of Hash is not the identity: as_hash re-hashes the
underlying bytes, so the empty variant maps to the SHA3-256 digest of the
empty byte string (a real digest, never the empty variant), and push
applies exactly this re-hashing to the content hash of the first entry
pushed onto an empty log.
-/
theorem C10_hash_rehash :
    (∀ h : Hash, hash_as_hash h = Hash.hash_bytes (Hash.get_bytes h)) ∧
    hash_as_hash Hash.none = Hash.hash_bytes [] ∧
    (∀ b : Bytes, ∃ d : Bytes32, Hash.hash_bytes b = Hash.sha3 d) ∧
    hash_as_hash Hash.none ≠ Hash.none ∧
    Hash.as_string (hash_as_hash Hash.none) =
      ("a7ffc6f8bf1ed76651c14756a061d662f580ff4de43b49fa82d80a4b80f8434a").toList ∧
    (∀ (T : Type) (itemHash : T → Hash) (t : T),
      (push itemHash (DefaultLog.new T) t).2 = hash_as_hash (itemHash t)) := by
  refine ⟨fun h => rfl, rfl, fun b => ⟨_, rfl⟩, by decide, by decide, fun T ih t => rfl⟩

-- Witnesses: each theorem above with hypotheses applied at a concrete input.

theorem C1_push_spec_witness :
    (push mystruct_hash (DefaultLog.new Nat) 1).1.head =
      Option.some (push mystruct_hash (DefaultLog.new Nat) 1).2 :=
  (C1_push_spec.1 Nat mystruct_hash (DefaultLog.new Nat) 1).2.2.2

theorem C3_migration_chain_witness :
    receive_hashable_flex (PRes.err (HashIOError.VersionError 0))
      (tbd_convert_chain
        [fun _ : Hash => (Option.none : Option Nat), fun _ => Option.some 7]
        Hash.none) = PRes.ok 7 :=
  ((C3_migration_chain (PRes.err (HashIOError.VersionError 0))
      [fun _ : Hash => (Option.none : Option Nat), fun _ => Option.some 7]
      Hash.none).2 (HashIOError.VersionError 0) rfl).1
    [fun _ => Option.none] (fun _ => Option.some 7) [] 7 rfl
    (by intro g hg; rw [List.mem_singleton.mp hg]) rfl

theorem C4_put_skip_when_exists_witness :
    putCore w_base child_none (str_record w_str) (str_hash w_str) w_fs1 =
      (PRes.ok w_fs1, [w_fs1]) :=
  C4_put_skip_when_exists w_base child_none (str_record w_str) (str_hash w_str)
    w_fs1 w_fileStr (by decide) (by decide)

theorem C5_put_atomic_witness :
    assocGet (pres_get (put_A w_base w_fs0 w_A).1 w_fs0).files w_fileA =
      Option.some (a_record w_A) :=
  (C5_put_atomic w_base (fun fs1 => put_str w_base fs1 w_A.b) (a_record w_A)
      (a_hash w_A) w_fs0 w_fileA (by decide) (by decide) (by decide) (by decide)
      (by decide)).2
    (pres_get (put_A w_base w_fs0 w_A).1 w_fs0) (by decide)

theorem C6_children_before_parent_witness :
    (assocGet ((put_A w_base w_fs0 w_A).2.getLastD w_fs0).files w_fileStr).isSome = true :=
  C6_children_before_parent w_base (fun fs1 => put_str w_base fs1 w_A.b) (a_record w_A)
    (a_hash w_A) w_fs0 w_fileA [w_fileStr] (by decide) (by decide) (by decide)
    (by decide) (by decide) (by decide)
    ((put_A w_base w_fs0 w_A).2.getLastD w_fs0) (by decide) (by decide)
    w_fileStr (by decide)

theorem C7_decode_validation_witness :
    internal_receive type_hash_A (a_fields w_base w_fs0) [0, 0, 0, 0] =
      PRes.err (HashIOError.VersionError 0) :=
  (C7_decode_validation type_hash_A (a_fields w_base w_fs0) [0, 0, 0, 0]).1 0 []
    (by decide) (by decide)

theorem C8_path_derivation_panics_witness :
    hashio_get_A w_base w_fs0 Hash.none = PRes.panic :=
  (C8_path_derivation_panics w_base w_fs0).2.2.2.2.1

theorem C10_hash_rehash_witness :
    (push mystruct_hash (DefaultLog.new Nat) 7).2 = hash_as_hash (mystruct_hash 7) :=
  C10_hash_rehash.2.2.2.2.2 Nat mystruct_hash 7

end Tbd
